import Mathlib

/-!
Shallow embedding of the cocoon colorspace data model and transformation
engine (src/cocoon), used to check the natural-language specification
against the code.

Conventions of the embedding:
* numpy float arrays are modelled with exact rationals; 3x3 matrices are a
  structure of nine rationals, CIE xy coordinates a pair of rationals.
* Python callables stored in `TransferFunctions.encoding` and `.decoding`
  are opaque handles compared by identity; they are modelled as `Option Nat`
  (a function-table index), matching the value semantics the code uses
  (`None` means linear, any callable is truthy).
* Python object identity is modelled for `RgbColorspace` with an `objId`
  field that value equality (`_tuplerepr`) ignores; `copy.deepcopy` assigns
  fresh ids from a supplied counter.
* The external `colour` library is out of scope for the repository and is
  passed in as function parameters (`npm` for
  `colour.normalised_primary_matrix`, `catM` for the chromatic-adaptation
  matrix, `applyTF` interpreting transfer-function handles).
* pixel arrays live in an explicit heap (`Heap`), so that numpy copy
  semantics (`array.copy()` allocates an independent buffer) is observable.
* fallible Python code returns `Except PyErr`.
-/

/-- Python exception classes relevant to the embedded code paths. -/
inductive PyErr where
  | valueError (msg : String)
  | typeError (msg : String)
  | keyError (msg : String)
deriving DecidableEq, Repr

instance {e a : Type} [DecidableEq e] [DecidableEq a] : DecidableEq (Except e a)
  | .ok x, .ok y =>
    if h : x = y then .isTrue (by rw [h]) else .isFalse (by simp [h])
  | .error x, .error y =>
    if h : x = y then .isTrue (by rw [h]) else .isFalse (by simp [h])
  | .ok _, .error _ => .isFalse (by simp)
  | .error _, .ok _ => .isFalse (by simp)

/-- A 3x3 matrix of exact rationals (embeds a numpy (3,3) float array). -/
structure Mat3 where
  a00 : Rat
  a01 : Rat
  a02 : Rat
  a10 : Rat
  a11 : Rat
  a12 : Rat
  a20 : Rat
  a21 : Rat
  a22 : Rat
deriving DecidableEq, Repr

/-- `numpy.identity(3)`. -/
def mat3Id : Mat3 := ⟨1, 0, 0, 0, 1, 0, 0, 0, 1⟩

/-- Matrix product, embeds `colour.algebra.matrix_dot` on 3x3 inputs. -/
def mat3Mul (m n : Mat3) : Mat3 :=
  ⟨m.a00 * n.a00 + m.a01 * n.a10 + m.a02 * n.a20,
   m.a00 * n.a01 + m.a01 * n.a11 + m.a02 * n.a21,
   m.a00 * n.a02 + m.a01 * n.a12 + m.a02 * n.a22,
   m.a10 * n.a00 + m.a11 * n.a10 + m.a12 * n.a20,
   m.a10 * n.a01 + m.a11 * n.a11 + m.a12 * n.a21,
   m.a10 * n.a02 + m.a11 * n.a12 + m.a12 * n.a22,
   m.a20 * n.a00 + m.a21 * n.a10 + m.a22 * n.a20,
   m.a20 * n.a01 + m.a21 * n.a11 + m.a22 * n.a21,
   m.a20 * n.a02 + m.a21 * n.a12 + m.a22 * n.a22⟩

/-- Determinant of a 3x3 matrix (cofactor expansion, as `numpy.linalg` does
up to floating error). -/
def mat3Det (m : Mat3) : Rat :=
  m.a00 * (m.a11 * m.a22 - m.a12 * m.a21)
    - m.a01 * (m.a10 * m.a22 - m.a12 * m.a20)
    + m.a02 * (m.a10 * m.a21 - m.a11 * m.a20)

/-- Adjugate-over-determinant inverse; embeds `numpy.linalg.inv` on a
nonsingular 3x3 input. -/
def mat3Inv (m : Mat3) : Mat3 :=
  let d := mat3Det m
  ⟨(m.a11 * m.a22 - m.a12 * m.a21) / d,
   (m.a02 * m.a21 - m.a01 * m.a22) / d,
   (m.a01 * m.a12 - m.a02 * m.a11) / d,
   (m.a12 * m.a20 - m.a10 * m.a22) / d,
   (m.a00 * m.a22 - m.a02 * m.a20) / d,
   (m.a02 * m.a10 - m.a00 * m.a12) / d,
   (m.a10 * m.a21 - m.a11 * m.a20) / d,
   (m.a01 * m.a20 - m.a00 * m.a21) / d,
   (m.a00 * m.a11 - m.a01 * m.a10) / d⟩

/-- A pixel: one 3-component vector. -/
structure Vec3 where
  x : Rat
  y : Rat
  z : Rat
deriving DecidableEq, Repr

/-- Per-pixel matrix-vector product, embeds `colour.algebra.vector_dot` on
one pixel. -/
def mat3Apply (m : Mat3) (v : Vec3) : Vec3 :=
  ⟨m.a00 * v.x + m.a01 * v.y + m.a02 * v.z,
   m.a10 * v.x + m.a11 * v.y + m.a12 * v.z,
   m.a20 * v.x + m.a21 * v.y + m.a22 * v.z⟩

/-- src/cocoon/colorspaces/base.py `Whitepoint`: name + CIE xy coordinates
(an ndarray(2,)). Value equality is over `(name, repr(coordinates))`, which
rational-pair equality models. -/
structure Whitepoint where
  name : String
  cx : Rat
  cy : Rat
deriving DecidableEq, Repr

/-- src/cocoon/colorspaces/base.py `ColorspaceGamut`: name + 3x2 primaries
matrix (one CIE xy pair per channel). -/
structure ColorspaceGamut where
  name : String
  rX : Rat
  rY : Rat
  gX : Rat
  gY : Rat
  bX : Rat
  bY : Rat
deriving DecidableEq, Repr

/-- src/cocoon/colorspaces/base.py `TransferFunctions`: the optional
encoding/decoding callables are opaque handles compared by identity
(`Option Nat`); `None` on a direction means that direction is linear. -/
structure TransferFunctions where
  name : String
  encoding : Option Nat
  decoding : Option Nat
deriving DecidableEq, Repr

/-- base.py `TransferFunctions.is_encoding_linear`. -/
def TransferFunctions.is_encoding_linear (tf : TransferFunctions) : Bool :=
  tf.encoding.isNone

/-- base.py `TransferFunctions.is_decoding_linear`. -/
def TransferFunctions.is_decoding_linear (tf : TransferFunctions) : Bool :=
  tf.decoding.isNone

/-- base.py `TransferFunctions.are_linear`. -/
def TransferFunctions.are_linear (tf : TransferFunctions) : Bool :=
  tf.is_encoding_linear && tf.is_decoding_linear

/-- base.py `TRANSFER_FUNCTIONS_LINEAR = TransferFunctions("CCTF Linear", None, None)`. -/
def TRANSFER_FUNCTIONS_LINEAR : TransferFunctions :=
  ⟨"CCTF Linear", none, none⟩

/-- Modelled from the spec: the `ColorspaceCategory` tag enumeration lives
in the `cocoon.colorspaces.categories` module, which is not under src/; its
members are those used by src/cocoon/colorspaces/datasets/build.py. The
claims only use categories as opaque ordered tags. -/
inductive ColorspaceCategory where
  | aces
  | working_space
  | common
  | camera
  | p3
  | special
deriving DecidableEq, Repr

/-- src/cocoon/colorspaces/cats.py `ChromaticAdaptationTransform`. -/
inductive ChromaticAdaptationTransform where
  | bianco_2010
  | bianco_pc_2010
  | bradford
  | CAT02_Brill
  | CAT02
  | CAT16
  | CMCCAT2000
  | CMCCAT97
  | fairchild
  | sharp
  | von_kries
  | XYZ_scaling
deriving DecidableEq, Repr

/-- src/cocoon/colorspaces/base.py `RgbColorspace` (a frozen dataclass).
`objId` models Python object identity and is ignored by value equality;
`linearSource` is the `_linear_source` back-reference, which makes the type
recursive. -/
inductive RgbColorspace where
  | mk
    (objId : Nat)
    (name : String)
    (gamut : Option ColorspaceGamut)
    (whitepoint : Option Whitepoint)
    (transfer_functions : Option TransferFunctions)
    (categories : List ColorspaceCategory)
    (description : String)
    (matrix_to_XYZ : Option Mat3)
    (matrix_from_XYZ : Option Mat3)
    (linearSource : Option RgbColorspace)
    (matrix_to_XYZ_derived : Bool)
    (matrix_from_XYZ_derived : Bool)

def RgbColorspace.objId : RgbColorspace → Nat
  | .mk i _ _ _ _ _ _ _ _ _ _ _ => i

def RgbColorspace.name : RgbColorspace → String
  | .mk _ n _ _ _ _ _ _ _ _ _ _ => n

def RgbColorspace.gamut : RgbColorspace → Option ColorspaceGamut
  | .mk _ _ g _ _ _ _ _ _ _ _ _ => g

def RgbColorspace.whitepoint : RgbColorspace → Option Whitepoint
  | .mk _ _ _ w _ _ _ _ _ _ _ _ => w

def RgbColorspace.transfer_functions : RgbColorspace → Option TransferFunctions
  | .mk _ _ _ _ tf _ _ _ _ _ _ _ => tf

def RgbColorspace.categories : RgbColorspace → List ColorspaceCategory
  | .mk _ _ _ _ _ cats _ _ _ _ _ _ => cats

def RgbColorspace.description : RgbColorspace → String
  | .mk _ _ _ _ _ _ d _ _ _ _ _ => d

def RgbColorspace.matrix_to_XYZ : RgbColorspace → Option Mat3
  | .mk _ _ _ _ _ _ _ mt _ _ _ _ => mt

def RgbColorspace.matrix_from_XYZ : RgbColorspace → Option Mat3
  | .mk _ _ _ _ _ _ _ _ mf _ _ _ => mf

def RgbColorspace.linearSource : RgbColorspace → Option RgbColorspace
  | .mk _ _ _ _ _ _ _ _ _ ls _ _ => ls

def RgbColorspace.matrix_to_XYZ_derived : RgbColorspace → Bool
  | .mk _ _ _ _ _ _ _ _ _ _ dt _ => dt

def RgbColorspace.matrix_from_XYZ_derived : RgbColorspace → Bool
  | .mk _ _ _ _ _ _ _ _ _ _ _ df => df

/-- base.py `BaseColorspaceComponent.__eq__` via `RgbColorspace._tuplerepr`:
value equality over `(name, gamut, whitepoint, transfer_functions,
categories, description, repr(matrix_to_XYZ), repr(matrix_from_XYZ))`. It
ignores `objId` (object identity), `_linear_source` and the two derived
flags, exactly as the source tuple does. -/
def rgbEq (c d : RgbColorspace) : Bool :=
  c.name = d.name && c.gamut = d.gamut && c.whitepoint = d.whitepoint
    && c.transfer_functions = d.transfer_functions
    && c.categories = d.categories && c.description = d.description
    && c.matrix_to_XYZ = d.matrix_to_XYZ && c.matrix_from_XYZ = d.matrix_from_XYZ

/-- `copy.deepcopy` on an `RgbColorspace`: all values are duplicated, every
object in the `_linear_source` chain receives a fresh identity. Ids are
assigned `n`, `n+1`, ... down the chain. -/
def RgbColorspace.deepcopy : RgbColorspace → Nat → RgbColorspace
  | .mk _ nm g w tf cats d mt mf none dt df, n =>
      .mk n nm g w tf cats d mt mf none dt df
  | .mk _ nm g w tf cats d mt mf (some s) dt df, n =>
      .mk n nm g w tf cats d mt mf (some (s.deepcopy (n + 1))) dt df

/-- All object identities reachable from a colorspace (itself plus its
`_linear_source` chain). -/
def RgbColorspace.idsOf : RgbColorspace → List Nat
  | .mk i _ _ _ _ _ _ _ _ none _ _ => [i]
  | .mk i _ _ _ _ _ _ _ _ (some s) _ _ => i :: s.idsOf

/-- `n` is fresh for `c`: strictly larger than every id reachable from `c`. -/
def freshFor (c : RgbColorspace) (n : Nat) : Prop :=
  ∀ i ∈ c.idsOf, i < n

instance (c : RgbColorspace) (n : Nat) : Decidable (freshFor c n) :=
  inferInstanceAs (Decidable (∀ i ∈ c.idsOf, i < n))

/-- Number of objects in the `_linear_source` chain (used to account for the
fresh identities a `deepcopy` consumes). -/
def RgbColorspace.chainLen : RgbColorspace → Nat
  | .mk _ _ _ _ _ _ _ _ _ none _ _ => 1
  | .mk _ _ _ _ _ _ _ _ _ (some s) _ _ => 1 + s.chainLen

/-- base.py `RgbColorspace.is_no_op` (cached property): true when the
colorspace defines no transform for any component. -/
def RgbColorspace.is_no_op (c : RgbColorspace) : Bool :=
  let has_gamut := c.gamut.isSome
    || (match c.matrix_from_XYZ with
        | some m => decide (m ≠ mat3Id)
        | none => false)
    || (match c.matrix_to_XYZ with
        | some m => decide (m ≠ mat3Id)
        | none => false)
  let has_whitepoint := c.whitepoint.isSome
  let has_transfer_function := match c.transfer_functions with
    | some tf => tf.decoding.isSome || tf.encoding.isSome
    | none => false
  !has_gamut && !has_whitepoint && !has_transfer_function

/-- base.py `RgbColorspace.copy`: `copy.deepcopy(self)` with a fresh-id
counter `n`. -/
def RgbColorspace.copy (c : RgbColorspace) (n : Nat) : RgbColorspace :=
  c.deepcopy n

/-- The truth value of `not self.transfer_functions or
self.transfer_functions.are_linear` from `as_linear_copy`. -/
def RgbColorspace.tfAbsentOrLinear (c : RgbColorspace) : Bool :=
  match c.transfer_functions with
  | none => true
  | some tf => tf.are_linear

/-- base.py `RgbColorspace.as_linear_copy`: the copy is taken first; if the
transfer functions are absent or linear it is returned as-is, otherwise a
new instance is built from the copy's fields with the linear singleton, a
" Linear" name suffix and `_linear_source=self` (the pre-copy original).
The constructor leaves both derived flags at their `False` defaults. -/
def RgbColorspace.as_linear_copy (c : RgbColorspace) (n : Nat) : RgbColorspace :=
  let new_colorspace := c.copy n
  if c.tfAbsentOrLinear then
    new_colorspace
  else
    .mk (n + c.chainLen) (new_colorspace.name ++ " Linear")
      new_colorspace.gamut new_colorspace.whitepoint
      (some TRANSFER_FUNCTIONS_LINEAR) new_colorspace.categories
      new_colorspace.description new_colorspace.matrix_to_XYZ
      new_colorspace.matrix_from_XYZ (some c) false false

/-- base.py `RgbColorspace.retrieve_linear_source`. -/
def RgbColorspace.retrieve_linear_source (c : RgbColorspace) : Option RgbColorspace :=
  c.linearSource

/-- base.py `RgbColorspace.with_gamut`: copies, replaces the gamut and both
matrices, keeps the copy's `_linear_source`; the constructor call omits the
derived flags, so they reset to `False`. -/
def RgbColorspace.with_gamut (c : RgbColorspace) (new_gamut : Option ColorspaceGamut)
    (matrix_to_XYZ matrix_from_XYZ : Option Mat3) (n : Nat) : RgbColorspace :=
  let new_colorspace := c.copy n
  .mk (n + c.chainLen) new_colorspace.name new_gamut new_colorspace.whitepoint
    new_colorspace.transfer_functions new_colorspace.categories
    new_colorspace.description matrix_to_XYZ matrix_from_XYZ
    new_colorspace.linearSource false false

/-- base.py `RgbColorspace.compute_matrix_to_XYZ_from`: delegates to
`colour.normalised_primary_matrix` (the external library), supplied here as
the parameter `npm`. -/
def RgbColorspace.compute_matrix_to_XYZ_from (npm : ColorspaceGamut → Whitepoint → Mat3)
    (gamut : ColorspaceGamut) (whitepoint : Whitepoint) : Mat3 :=
  npm gamut whitepoint

/-- base.py `RgbColorspace.compute_matrix_from_XYZ_from`:
`numpy.linalg.inv` of the normalized primary matrix; `inv` raises a
`LinAlgError` on a singular input. -/
def RgbColorspace.compute_matrix_from_XYZ_from (npm : ColorspaceGamut → Whitepoint → Mat3)
    (gamut : ColorspaceGamut) (whitepoint : Whitepoint) : Except PyErr Mat3 :=
  let m := RgbColorspace.compute_matrix_to_XYZ_from npm gamut whitepoint
  if mat3Det m = 0 then
    .error (.valueError "LinAlgError: singular matrix")
  else
    .ok (mat3Inv m)

/-- base.py `RgbColorspace.with_derived_matrices`: if gamut or whitepoint is
absent, `self.with_gamut(self.gamut, None, None)`; otherwise both matrices
are recomputed from gamut+whitepoint and a new instance is built from a
copy with both derived flags set. -/
def RgbColorspace.with_derived_matrices (npm : ColorspaceGamut → Whitepoint → Mat3)
    (c : RgbColorspace) (n : Nat) : Except PyErr RgbColorspace :=
  match c.gamut, c.whitepoint with
  | some g, some w =>
      let matrix_to_XYZ := RgbColorspace.compute_matrix_to_XYZ_from npm g w
      match RgbColorspace.compute_matrix_from_XYZ_from npm g w with
      | .error e => .error e
      | .ok matrix_from_XYZ =>
          let new_colorspace := c.copy n
          .ok (.mk (n + c.chainLen) new_colorspace.name new_colorspace.gamut
            new_colorspace.whitepoint new_colorspace.transfer_functions
            new_colorspace.categories new_colorspace.description
            (some matrix_to_XYZ) (some matrix_from_XYZ)
            new_colorspace.linearSource true true)
  | _, _ => .ok (c.with_gamut c.gamut none none n)

/-- Python `or` on an optional string: both `None` and the empty string are
falsy, so either falls back to the right operand. -/
def pyStrOr (a : Option String) (b : String) : String :=
  match a with
  | none => b
  | some s => if s = "" then b else s

/-- base.py `RgbColorspace.with_descriptives`: name and description fall
back through Python `or` (so `""` keeps the current value), categories are
compared against `None` explicitly (so an empty sequence replaces). The
constructor omits the derived flags. -/
def RgbColorspace.with_descriptives (c : RgbColorspace) (new_name : Option String)
    (new_description : Option String)
    (new_categories : Option (List ColorspaceCategory)) (n : Nat) : RgbColorspace :=
  let new_colorspace := c.copy n
  let nameV := pyStrOr new_name new_colorspace.name
  let descriptionV := pyStrOr new_description new_colorspace.description
  let categoriesV := match new_categories with
    | some cats => cats
    | none => new_colorspace.categories
  .mk (n + c.chainLen) nameV new_colorspace.gamut new_colorspace.whitepoint
    new_colorspace.transfer_functions categoriesV descriptionV
    new_colorspace.matrix_to_XYZ new_colorspace.matrix_from_XYZ
    new_colorspace.linearSource false false

/-- ASCII characters matched by the Python regex class `\s` (the input has
already been ASCII-folded when the regex runs). -/
def pyWhitespace (c : Char) : Bool :=
  c = ' ' || c = Char.ofNat 9 || c = Char.ofNat 10 || c = Char.ofNat 13
    || c = Char.ofNat 11 || c = Char.ofNat 12 || c = Char.ofNat 28
    || c = Char.ofNat 29 || c = Char.ofNat 30 || c = Char.ofNat 31

/-- The character class of `[\s\\/'\"]` in utils.py `simplify` (whitespace,
backslash, forward slash, single quote, double quote). -/
def hyphenClass (c : Char) : Bool :=
  pyWhitespace c || c = Char.ofNat 92 || c = '/' || c = Char.ofNat 39
    || c = Char.ofNat 34

/-- The character class of `[()\[\]{}]` in utils.py `simplify`. -/
def bracketClass (c : Char) : Bool :=
  c = '(' || c = ')' || c = '[' || c = ']' || c = Char.ofNat 123
    || c = Char.ofNat 125

/-- Left-to-right scanner implementing `re.sub(r"[\s\\/'\"]+", "-", value)`:
the Boolean records whether the previous character belonged to the class,
so each maximal run emits a single hyphen. -/
def subClassRuns : Bool → List Char → List Char
  | _, [] => []
  | inRun, c :: rest =>
    if hyphenClass c then
      if inRun then subClassRuns true rest
      else '-' :: subClassRuns true rest
    else c :: subClassRuns false rest

/-- `re.sub(r"[()\[\]{}]", "", value)`: delete every bracket character. -/
def removeBrackets (s : List Char) : List Char :=
  s.filter (fun c => !bracketClass c)

/-- What a hyphen run of length `n` contributes after
`re.sub(r"-{2,}", "--", value)`. -/
def hyOut (n : Nat) : List Char :=
  if n = 0 then [] else if n = 1 then ['-'] else ['-', '-']

/-- Scanner implementing `re.sub(r"-{2,}", "--", value)`: counts the current
hyphen run and emits it (capped at two) when the run ends. -/
def collapseHyphensAux : Nat → List Char → List Char
  | n, [] => hyOut n
  | n, c :: rest =>
    if c = '-' then collapseHyphensAux (n + 1) rest
    else hyOut n ++ c :: collapseHyphensAux 0 rest

/-- src/cocoon/utils.py `simplify` (the `allow_unicode=False` branch used by
`name_simplified`): NFKD-normalize (the external `unicodedata.normalize`,
passed as `nfkd`), drop non-ASCII, lowercase, then the three regex passes. -/
def simplify (nfkd : List Char → List Char) (s : List Char) : List Char :=
  let value := (nfkd s).filter (fun c => c.toNat < 128)
  let value := value.map Char.toLower
  let value := subClassRuns false value
  let value := removeBrackets value
  collapseHyphensAux 0 value

/-- Modelled from the spec: "replace each maximal run ... with a single
hyphen" as a direct run-replacement recursion (replaces a whole maximal
class run by `rep` in one step). Used to compare the code's scanner against
the claim's wording. -/
def specRunReplace (p : Char → Bool) (rep : List Char) : List Char → List Char
  | [] => []
  | c :: rest =>
    if p c then rep ++ specRunReplace p rep (rest.dropWhile p)
    else c :: specRunReplace p rep rest
termination_by l => l.length
decreasing_by
  · simp only [List.length_cons]
    have := (List.dropWhile_suffix (l := rest) p).length_le
    omega
  · simp

/-- Modelled from the spec: "collapse each run of two or more consecutive
hyphens to exactly two hyphens", replacing each maximal hyphen run of
length at least two in one step. -/
def specCollapseRuns : List Char → List Char
  | [] => []
  | c :: rest =>
    if c = '-' then
      (if rest.head? = some '-' then ['-', '-'] else ['-'])
        ++ specCollapseRuns (rest.dropWhile (fun d => d = '-'))
    else c :: specCollapseRuns rest
termination_by l => l.length
decreasing_by
  · simp only [List.length_cons]
    have := (List.dropWhile_suffix (l := rest) (fun d => d = '-')).length_le
    omega
  · simp

/-- Modelled from the spec: the slug algorithm exactly as the claim words
it — ASCII-fold after NFKD, lowercase, maximal class runs to one hyphen,
brackets deleted, hyphen runs of two or more collapsed to exactly two. -/
def simplifySpec (nfkd : List Char → List Char) (s : List Char) : List Char :=
  let value := (nfkd s).filter (fun c => c.toNat < 128)
  let value := value.map Char.toLower
  let value := specRunReplace hyphenClass ['-'] value
  let value := value.filter (fun c => !bracketClass c)
  specCollapseRuns value

/-- base.py `BaseColorspaceComponent.name_simplified` for an
`RgbColorspace`: `simplify(self.name)`. -/
def RgbColorspace.name_simplified (nfkd : List Char → List Char)
    (c : RgbColorspace) : List Char :=
  simplify nfkd c.name.data

/-- The process-wide `_COLORSPACES` dict: keys (names and aliases) to
colorspace instances, in insertion order with unique keys. -/
abbrev Registry := List (String × RgbColorspace)

/-- Python `dict` lookup on the association list. -/
def dictGet : Registry → String → Option RgbColorspace
  | [], _ => none
  | (k, v) :: rest, key => if k = key then some v else dictGet rest key

/-- Python `dict` assignment: overwrite in place if the key exists, append
otherwise. -/
def dictSet : Registry → String → RgbColorspace → Registry
  | [], k, v => [(k, v)]
  | (k0, v0) :: rest, k, v =>
    if k0 = k then (k0, v) :: rest else (k0, v0) :: dictSet rest k v

/-- src/cocoon/colorspaces/datasets/build.py `_add_colorspace`: register
under the canonical name, the simplified slug, then each explicit alias. -/
def add_colorspace (nfkd : List Char → List Char) (reg : Registry)
    (colorspace : RgbColorspace) (additional_aliases : List String) : Registry :=
  let reg := dictSet reg colorspace.name colorspace
  let reg := dictSet reg (String.mk (colorspace.name_simplified nfkd)) colorspace
  additional_aliases.foldl (fun r a => dictSet r a colorspace) reg

/-- src/cocoon/colorspaces/datasets/browse.py `_colorspaces_dataset`: a copy
of the registry with every currently-disabled key popped (in the states the
module reaches, disabled keys always exist in the dict, so the pops cannot
raise and the effect is a key filter). -/
def colorspaces_dataset (reg : Registry) (disabled : List String) : Registry :=
  reg.filter (fun kv => !disabled.contains kv.1)

/-- browse.py `_get_colorspace_aliases`: every key of the *enabled* dataset
whose value compares equal (`__eq__`, i.e. `_tuplerepr`) to the given
colorspace. -/
def get_colorspace_aliases (reg : Registry) (disabled : List String)
    (colorspace : RgbColorspace) : List String :=
  (colorspaces_dataset reg disabled).filterMap
    (fun kv => if rgbEq colorspace kv.2 then some kv.1 else none)

/-- browse.py `disable_colorspaces`, the loop before `yield`: for each name
look it up in the *full* registry (a missing name raises `KeyError`) and
extend the process-wide disabled list, in place, with all the aliases of
the resolved colorspace. On error the payload is the disabled list as
already mutated (the `try/finally` that restores it only guards the
`yield`, so a `KeyError` raised here leaves the extensions in place). -/
def disable_colorspaces_enter (reg : Registry) :
    List String → List String → Except (List String) (List String)
  | disabled, [] => .ok disabled
  | disabled, colorspace_name :: rest =>
    match dictGet reg colorspace_name with
    | none => .error disabled
    | some colorspace =>
        disable_colorspaces_enter reg
          (disabled ++ get_colorspace_aliases reg disabled colorspace) rest

/-- Observable outcome of one `with disable_colorspaces(names): body` use:
the disabled set the body ran under (absent when entry raised `KeyError`),
the disabled set after the statement, and whether entry raised. -/
structure ScopeOutcome where
  duringBody : Option (List String)
  finalState : List String
  enterRaised : Bool
deriving DecidableEq, Repr

/-- browse.py `disable_colorspaces` as a context manager: snapshot the
disabled list, run the entry loop, then restore the snapshot in a
`finally` around `yield` — so after a successful entry the snapshot is
restored no matter whether the body raised (`bodyRaises` cannot influence
the final state), while a `KeyError` during entry skips the restore and
leaves the mutated list behind. -/
def disable_colorspaces_scope (reg : Registry) (previous_disabled : List String)
    (names : List String) (bodyRaises : Bool) : ScopeOutcome :=
  let _ := bodyRaises
  match disable_colorspaces_enter reg previous_disabled names with
  | .error leaked => ⟨none, leaked, true⟩
  | .ok d => ⟨some d, previous_disabled, false⟩

/-- browse.py `get_colorspace`: `None`/empty name gives `None`; the lookup
runs on the enabled dataset; `force_linear` post-processes through
`as_linear_copy` (with fresh-id counter `n`). -/
def get_colorspace (reg : Registry) (disabled : List String)
    (name : Option String) (force_linear : Bool) (n : Nat) :
    Option RgbColorspace :=
  match name with
  | none => none
  | some nm =>
    if nm = "" then none
    else
      match dictGet (colorspaces_dataset reg disabled) nm with
      | none => none
      | some colorspace =>
          if force_linear then some (colorspace.as_linear_copy n)
          else some colorspace

/-- A pixel buffer: the flattened contents of one numpy array. -/
abbrev Buf := List Vec3

/-- The heap of allocated pixel buffers; an ndarray is an index into it. -/
abbrev Heap := List Buf

/-- Dereference an ndarray. -/
def readBuf (h : Heap) (r : Nat) : Buf :=
  (h.get? r).getD []

/-- Allocate a fresh buffer (what every numpy operation producing a new
array does). -/
def allocBuf (h : Heap) (b : Buf) : Heap × Nat :=
  (h ++ [b], h.length)

/-- `array.copy()`: read the buffer and allocate an independent one with
the same contents. -/
def ndarrayCopy (h : Heap) (r : Nat) : Heap × Nat :=
  allocBuf h (readBuf h r)

/-- In-place mutation of an ndarray's buffer (e.g. `arr[...] = v`). -/
def writeBuf (h : Heap) (r : Nat) (b : Buf) : Heap :=
  h.set r b

/-- `colour.algebra.matrix_dot` where either operand may be Python `None`
(a `None` operand makes numpy raise a `TypeError`). -/
def matDot? : Option Mat3 → Option Mat3 → Except PyErr Mat3
  | some m, some n => .ok (mat3Mul m n)
  | _, _ => .error (.typeError "matrix_dot on None")

/-- `colour.algebra.vector_dot` with an optional matrix operand. -/
def vecDot? : Option Mat3 → Buf → Except PyErr Buf
  | some m, b => .ok (b.map (mat3Apply m))
  | none, _ => .error (.typeError "vector_dot on None")

/-- src/cocoon/colorspaces/transformations.py
`matrix_colorspace_to_colorspace`. The whitepoint guard is the code's
`chromatic_adaptation_transform is not None and not source_colorspace.whitepoint
or not target_colorspace.whitepoint`, which Python parses as
`(A and B) or C`. After the guard, the final match's catch-all arm is
reachable only with no adaptation transform (the guard has already errored
whenever the transform is present and a whitepoint is missing). -/
def matrix_colorspace_to_colorspace
    (catM : Whitepoint → Whitepoint → ChromaticAdaptationTransform → Mat3)
    (source_colorspace target_colorspace : RgbColorspace)
    (chromatic_adaptation_transform : Option ChromaticAdaptationTransform) :
    Except PyErr Mat3 :=
  if source_colorspace.is_no_op || target_colorspace.is_no_op
      || source_colorspace.gamut.isNone || target_colorspace.gamut.isNone then
    .ok mat3Id
  else if (chromatic_adaptation_transform.isSome
        && source_colorspace.whitepoint.isNone)
      || target_colorspace.whitepoint.isNone then
    .error (.valueError "missing whitepoint on one of the colorspace argument")
  else
    match chromatic_adaptation_transform, source_colorspace.whitepoint,
        target_colorspace.whitepoint with
    | some t, some sw, some tw =>
        match matDot? (some (catM sw tw t)) source_colorspace.matrix_to_XYZ with
        | .error e => .error e
        | .ok M => matDot? target_colorspace.matrix_from_XYZ (some M)
    | _, _, _ =>
        matDot? target_colorspace.matrix_from_XYZ source_colorspace.matrix_to_XYZ

/-- transformations.py `colorspace_to_XYZ`. `applyTF` interprets the opaque
decoding handle; the domain-scale wrappers are value-identity at the
default reference scale. The whitepoint guard has the same `(A and B) or C`
shape, here with `whitepoint_XYZ is None` as `C`, and it runs only after
the matrix multiplication. -/
def colorspace_to_XYZ (applyTF : Nat → Buf → Buf)
    (catM : Whitepoint → Whitepoint → ChromaticAdaptationTransform → Mat3)
    (h : Heap) (r : Nat) (source_colorspace : RgbColorspace)
    (whitepoint_XYZ : Option Whitepoint)
    (chromatic_adaptation_transform : Option ChromaticAdaptationTransform) :
    Except PyErr (Heap × Nat) :=
  if source_colorspace.is_no_op || source_colorspace.gamut.isNone then
    .ok (ndarrayCopy h r)
  else
    let RGB := readBuf h r
    let RGB := match source_colorspace.transfer_functions with
      | some tf =>
          match tf.decoding with
          | some f => applyTF f RGB
          | none => RGB
      | none => RGB
    match vecDot? source_colorspace.matrix_to_XYZ RGB with
    | .error e => .error e
    | .ok XYZ =>
      if (chromatic_adaptation_transform.isSome
            && source_colorspace.whitepoint.isNone)
          || whitepoint_XYZ.isNone then
        .error (.valueError "missing whitepoint on one of the argument")
      else
        let XYZ := match chromatic_adaptation_transform,
            source_colorspace.whitepoint, whitepoint_XYZ with
          | some t, some sw, some wx => XYZ.map (mat3Apply (catM sw wx t))
          | _, _, _ => XYZ
        .ok (allocBuf h XYZ)

/-- transformations.py `XYZ_to_colorspace`: symmetric to the previous
function; here the whitepoint guard runs before the matrix multiplication
and the adaptation goes from `whitepoint_XYZ` to the target whitepoint. -/
def XYZ_to_colorspace (applyTF : Nat → Buf → Buf)
    (catM : Whitepoint → Whitepoint → ChromaticAdaptationTransform → Mat3)
    (h : Heap) (r : Nat) (target_colorspace : RgbColorspace)
    (whitepoint_XYZ : Option Whitepoint)
    (chromatic_adaptation_transform : Option ChromaticAdaptationTransform) :
    Except PyErr (Heap × Nat) :=
  if target_colorspace.is_no_op || target_colorspace.gamut.isNone then
    .ok (ndarrayCopy h r)
  else
    let XYZ := readBuf h r
    if (chromatic_adaptation_transform.isSome
          && target_colorspace.whitepoint.isNone)
        || whitepoint_XYZ.isNone then
      .error (.valueError "missing whitepoint on one of the argument")
    else
      let XYZ := match chromatic_adaptation_transform, whitepoint_XYZ,
          target_colorspace.whitepoint with
        | some t, some wx, some tw => XYZ.map (mat3Apply (catM wx tw t))
        | _, _, _ => XYZ
      match vecDot? target_colorspace.matrix_from_XYZ XYZ with
      | .error e => .error e
      | .ok RGB =>
        let RGB := match target_colorspace.transfer_functions with
          | some tf =>
              match tf.encoding with
              | some f => applyTF f RGB
              | none => RGB
          | none => RGB
        .ok (allocBuf h RGB)

/-- transformations.py `colorspace_to_colorspace`: copy out when either
colorspace is no-op or source equals target by value; otherwise decode,
multiply by the combined conversion matrix (whose computation may raise the
whitepoint `ValueError`), encode. -/
def colorspace_to_colorspace (applyTF : Nat → Buf → Buf)
    (catM : Whitepoint → Whitepoint → ChromaticAdaptationTransform → Mat3)
    (h : Heap) (r : Nat) (source_colorspace target_colorspace : RgbColorspace)
    (chromatic_adaptation_transform : Option ChromaticAdaptationTransform) :
    Except PyErr (Heap × Nat) :=
  if source_colorspace.is_no_op || target_colorspace.is_no_op then
    .ok (ndarrayCopy h r)
  else if rgbEq source_colorspace target_colorspace then
    .ok (ndarrayCopy h r)
  else
    let RGB := readBuf h r
    let RGB := match source_colorspace.transfer_functions with
      | some tf =>
          match tf.decoding with
          | some f => applyTF f RGB
          | none => RGB
      | none => RGB
    match matrix_colorspace_to_colorspace catM source_colorspace
        target_colorspace chromatic_adaptation_transform with
    | .error e => .error e
    | .ok matrix =>
      let RGB := RGB.map (mat3Apply matrix)
      let RGB := match target_colorspace.transfer_functions with
        | some tf =>
            match tf.encoding with
            | some f => applyTF f RGB
            | none => RGB
        | none => RGB
      .ok (allocBuf h RGB)

@[simp]
theorem RgbColorspace.mk_objId (i : Nat) (nm g w tf cats d mt mf ls dt df) :
    (RgbColorspace.mk i nm g w tf cats d mt mf ls dt df).objId = i := rfl

@[simp]
theorem RgbColorspace.mk_name (i : Nat) (nm g w tf cats d mt mf ls dt df) :
    (RgbColorspace.mk i nm g w tf cats d mt mf ls dt df).name = nm := rfl

@[simp]
theorem RgbColorspace.mk_gamut (i : Nat) (nm g w tf cats d mt mf ls dt df) :
    (RgbColorspace.mk i nm g w tf cats d mt mf ls dt df).gamut = g := rfl

@[simp]
theorem RgbColorspace.mk_whitepoint (i : Nat) (nm g w tf cats d mt mf ls dt df) :
    (RgbColorspace.mk i nm g w tf cats d mt mf ls dt df).whitepoint = w := rfl

@[simp]
theorem RgbColorspace.mk_transfer_functions (i : Nat) (nm g w tf cats d mt mf ls dt df) :
    (RgbColorspace.mk i nm g w tf cats d mt mf ls dt df).transfer_functions = tf := rfl

@[simp]
theorem RgbColorspace.mk_categories (i : Nat) (nm g w tf cats d mt mf ls dt df) :
    (RgbColorspace.mk i nm g w tf cats d mt mf ls dt df).categories = cats := rfl

@[simp]
theorem RgbColorspace.mk_description (i : Nat) (nm g w tf cats d mt mf ls dt df) :
    (RgbColorspace.mk i nm g w tf cats d mt mf ls dt df).description = d := rfl

@[simp]
theorem RgbColorspace.mk_matrix_to_XYZ (i : Nat) (nm g w tf cats d mt mf ls dt df) :
    (RgbColorspace.mk i nm g w tf cats d mt mf ls dt df).matrix_to_XYZ = mt := rfl

@[simp]
theorem RgbColorspace.mk_matrix_from_XYZ (i : Nat) (nm g w tf cats d mt mf ls dt df) :
    (RgbColorspace.mk i nm g w tf cats d mt mf ls dt df).matrix_from_XYZ = mf := rfl

@[simp]
theorem RgbColorspace.mk_linearSource (i : Nat) (nm g w tf cats d mt mf ls dt df) :
    (RgbColorspace.mk i nm g w tf cats d mt mf ls dt df).linearSource = ls := rfl

@[simp]
theorem RgbColorspace.mk_matrix_to_XYZ_derived (i : Nat) (nm g w tf cats d mt mf ls dt df) :
    (RgbColorspace.mk i nm g w tf cats d mt mf ls dt df).matrix_to_XYZ_derived = dt := rfl

@[simp]
theorem RgbColorspace.mk_matrix_from_XYZ_derived (i : Nat) (nm g w tf cats d mt mf ls dt df) :
    (RgbColorspace.mk i nm g w tf cats d mt mf ls dt df).matrix_from_XYZ_derived = df := rfl

theorem RgbColorspace.deepcopy_eq (c : RgbColorspace) (n : Nat) :
    c.deepcopy n
      = .mk n c.name c.gamut c.whitepoint c.transfer_functions c.categories
          c.description c.matrix_to_XYZ c.matrix_from_XYZ
          (c.linearSource.map (fun s => s.deepcopy (n + 1)))
          c.matrix_to_XYZ_derived c.matrix_from_XYZ_derived := by
  obtain ⟨i, nm, g, w, tf, cats, d, mt, mf, ls, dt, df⟩ := c
  cases ls <;> rfl

@[simp]
theorem RgbColorspace.deepcopy_objId (c : RgbColorspace) (n : Nat) :
    (c.deepcopy n).objId = n := by
  rw [RgbColorspace.deepcopy_eq]; rfl

@[simp]
theorem RgbColorspace.deepcopy_name (c : RgbColorspace) (n : Nat) :
    (c.deepcopy n).name = c.name := by
  rw [RgbColorspace.deepcopy_eq]; rfl

@[simp]
theorem RgbColorspace.deepcopy_gamut (c : RgbColorspace) (n : Nat) :
    (c.deepcopy n).gamut = c.gamut := by
  rw [RgbColorspace.deepcopy_eq]; rfl

@[simp]
theorem RgbColorspace.deepcopy_whitepoint (c : RgbColorspace) (n : Nat) :
    (c.deepcopy n).whitepoint = c.whitepoint := by
  rw [RgbColorspace.deepcopy_eq]; rfl

@[simp]
theorem RgbColorspace.deepcopy_transfer_functions (c : RgbColorspace) (n : Nat) :
    (c.deepcopy n).transfer_functions = c.transfer_functions := by
  rw [RgbColorspace.deepcopy_eq]; rfl

@[simp]
theorem RgbColorspace.deepcopy_categories (c : RgbColorspace) (n : Nat) :
    (c.deepcopy n).categories = c.categories := by
  rw [RgbColorspace.deepcopy_eq]; rfl

@[simp]
theorem RgbColorspace.deepcopy_description (c : RgbColorspace) (n : Nat) :
    (c.deepcopy n).description = c.description := by
  rw [RgbColorspace.deepcopy_eq]; rfl

@[simp]
theorem RgbColorspace.deepcopy_matrix_to_XYZ (c : RgbColorspace) (n : Nat) :
    (c.deepcopy n).matrix_to_XYZ = c.matrix_to_XYZ := by
  rw [RgbColorspace.deepcopy_eq]; rfl

@[simp]
theorem RgbColorspace.deepcopy_matrix_from_XYZ (c : RgbColorspace) (n : Nat) :
    (c.deepcopy n).matrix_from_XYZ = c.matrix_from_XYZ := by
  rw [RgbColorspace.deepcopy_eq]; rfl

@[simp]
theorem RgbColorspace.deepcopy_linearSource (c : RgbColorspace) (n : Nat) :
    (c.deepcopy n).linearSource
      = c.linearSource.map (fun s => s.deepcopy (n + 1)) := by
  rw [RgbColorspace.deepcopy_eq]; rfl

theorem rgbEq_iff (c d : RgbColorspace) :
    rgbEq c d = true
      ↔ c.name = d.name ∧ c.gamut = d.gamut ∧ c.whitepoint = d.whitepoint
          ∧ c.transfer_functions = d.transfer_functions
          ∧ c.categories = d.categories ∧ c.description = d.description
          ∧ c.matrix_to_XYZ = d.matrix_to_XYZ
          ∧ c.matrix_from_XYZ = d.matrix_from_XYZ := by
  simp [rgbEq, and_assoc]

theorem rgbEq_deepcopy (c : RgbColorspace) (n : Nat) :
    rgbEq (c.deepcopy n) c = true := by
  simp [rgbEq_iff]

theorem rgbEq_refl (c : RgbColorspace) : rgbEq c c = true := by
  simp [rgbEq_iff]

theorem RgbColorspace.objId_mem_idsOf (c : RgbColorspace) : c.objId ∈ c.idsOf := by
  obtain ⟨i, nm, g, w, tf, cats, d, mt, mf, ls, dt, df⟩ := c
  cases ls <;> simp [RgbColorspace.idsOf]

/-- The no-op condition exactly as the claim words it: gamut absent, any
provided matrix equal to the 3x3 identity, whitepoint absent, transfer
functions absent or linear in both directions. -/
def specNoOp (c : RgbColorspace) : Prop :=
  c.gamut = none
    ∧ (∀ m, c.matrix_to_XYZ = some m → m = mat3Id)
    ∧ (∀ m, c.matrix_from_XYZ = some m → m = mat3Id)
    ∧ c.whitepoint = none
    ∧ (∀ tf, c.transfer_functions = some tf → tf.encoding = none ∧ tf.decoding = none)

/-- An all-absent colorspace (like the registered "Passthrough"). -/
def csAllAbsent : RgbColorspace :=
  .mk 100 "Passthrough" none none none [] "A 'null' colorspace that does nothing."
    none none none false false

/-- A standards-like gamut value used by the concrete test colorspaces
(sRGB primaries; the rationals are built in lowest terms so that kernel
evaluation of equality tests never needs gcd reduction). -/
def gamutSRGB : ColorspaceGamut :=
  ⟨"Gamut sRGB", ⟨16, 25, by norm_num, by norm_num⟩,
    ⟨33, 100, by norm_num, by norm_num⟩, ⟨3, 10, by norm_num, by norm_num⟩,
    ⟨3, 5, by norm_num, by norm_num⟩, ⟨3, 20, by norm_num, by norm_num⟩,
    ⟨3, 50, by norm_num, by norm_num⟩⟩

/-- The D65 whitepoint used by the concrete test colorspaces. -/
def wpD65 : Whitepoint :=
  ⟨"D65", ⟨3127, 10000, by norm_num, by norm_num⟩,
    ⟨329, 1000, by norm_num, by norm_num⟩⟩

/-- The rational one half, in lowest terms. -/
def ratHalf : Rat := ⟨1, 2, by norm_num, by norm_num⟩

/-- A gamut-only colorspace. -/
def csGamutOnly : RgbColorspace :=
  .mk 101 "gamut only" (some gamutSRGB) none none [] "" none none none false false

/-- Identity matrices, everything else absent. -/
def csIdentityMatrices : RgbColorspace :=
  .mk 102 "identity" none none none [] "" (some mat3Id) (some mat3Id) none false false

/-- A matrix with 0.5 entries, everything else absent. -/
def csHalfMatrix : RgbColorspace :=
  .mk 103 "half" none none none [] ""
    (some ⟨1, 0, 0, 0, 1, 0, 0, 0, 1⟩)
    (some ⟨ratHalf, ratHalf, ratHalf, ratHalf, ratHalf, ratHalf, ratHalf,
      ratHalf, ratHalf⟩) none false false

/-- C3: `is_no_op` is true exactly when the gamut is absent, any provided
matrix_to_XYZ and matrix_from_XYZ equal the 3x3 identity, the whitepoint is
absent, and the transfer functions are absent or linear in both directions;
the four example colorspaces behave as the claim lists. -/
theorem is_no_op_iff_specNoOp :
    (∀ c : RgbColorspace, c.is_no_op = true ↔ specNoOp c)
      ∧ csAllAbsent.is_no_op = true
      ∧ csGamutOnly.is_no_op = false
      ∧ csIdentityMatrices.is_no_op = true
      ∧ csHalfMatrix.is_no_op = false := by
  refine ⟨?_, by decide, by decide, by decide, by decide⟩
  intro c
  obtain ⟨i, nm, g, w, tf, cats, d, mt, mf, ls, dt, df⟩ := c
  simp only [RgbColorspace.is_no_op, specNoOp, RgbColorspace.mk_gamut,
    RgbColorspace.mk_whitepoint, RgbColorspace.mk_transfer_functions,
    RgbColorspace.mk_matrix_to_XYZ, RgbColorspace.mk_matrix_from_XYZ]
  cases g <;> cases w <;> cases mt <;> cases mf <;> cases tf <;>
    simp +decide [Option.isSome] <;> try tauto
  all_goals
    rename_i tfv
    obtain ⟨tn, te, td⟩ := tfv
    cases te <;> cases td <;> simp +decide <;> tauto

/-- C10: `with_descriptives` treats the empty string like the null
"keep current value" argument for name and description (Python `or`
falsiness), while an explicitly passed empty categories sequence is honored
as a replacement — only `None` keeps the current categories. -/
theorem with_descriptives_empty_arguments :
    ∀ (c : RgbColorspace) (n : Nat),
      (c.with_descriptives (some "") none none n).name = c.name
        ∧ (c.with_descriptives (some "") none none n).description = c.description
        ∧ (c.with_descriptives none (some "") none n).description = c.description
        ∧ (c.with_descriptives none (some "") none n).name = c.name
        ∧ (c.with_descriptives none none none n).name = c.name
        ∧ (c.with_descriptives none none none n).description = c.description
        ∧ (c.with_descriptives none none none n).categories = c.categories
        ∧ (c.with_descriptives none none (some []) n).categories = []
        ∧ (c.with_descriptives (some "") none (some []) n).name = c.name := by
  intro c n
  simp [RgbColorspace.with_descriptives, pyStrOr, RgbColorspace.copy]

/-- C5: `as_linear_copy` returns a value-equal deep copy (fresh identity,
name unchanged) when the transfer functions are absent or linear in both
directions; otherwise a new instance carrying the canonical linear
transfer-function singleton, the name suffixed with " Linear", copies of
every other listed field, and a `_linear_source` back-reference that is the
original instance `c` itself (same identity). The original is never
mutated: the function is pure and `c` is untouched. -/
theorem as_linear_copy_spec :
    ∀ (c : RgbColorspace) (n : Nat), freshFor c n →
      (c.tfAbsentOrLinear = true →
        rgbEq (c.as_linear_copy n) c = true
          ∧ (c.as_linear_copy n).name = c.name
          ∧ (c.as_linear_copy n).objId ≠ c.objId)
        ∧ (c.tfAbsentOrLinear = false →
          (c.as_linear_copy n).transfer_functions = some TRANSFER_FUNCTIONS_LINEAR
            ∧ (c.as_linear_copy n).name = c.name ++ " Linear"
            ∧ (c.as_linear_copy n).gamut = c.gamut
            ∧ (c.as_linear_copy n).whitepoint = c.whitepoint
            ∧ (c.as_linear_copy n).categories = c.categories
            ∧ (c.as_linear_copy n).description = c.description
            ∧ (c.as_linear_copy n).matrix_to_XYZ = c.matrix_to_XYZ
            ∧ (c.as_linear_copy n).matrix_from_XYZ = c.matrix_from_XYZ
            ∧ (c.as_linear_copy n).retrieve_linear_source = some c) := by
  intro c n hfresh
  have hobj : c.objId < n := hfresh c.objId c.objId_mem_idsOf
  constructor
  · intro hlin
    refine ⟨?_, ?_, ?_⟩
    · simp [RgbColorspace.as_linear_copy, hlin, RgbColorspace.copy, rgbEq_deepcopy]
    · simp [RgbColorspace.as_linear_copy, hlin, RgbColorspace.copy]
    · simp only [RgbColorspace.as_linear_copy, hlin, if_true,
        RgbColorspace.copy, RgbColorspace.deepcopy_objId]
      omega
  · intro hnonlin
    simp [RgbColorspace.as_linear_copy, hnonlin, RgbColorspace.copy,
      RgbColorspace.retrieve_linear_source]

/-- A non-linear test colorspace: sRGB-like with an encoding and a decoding
callable handle. -/
def csNonLinear : RgbColorspace :=
  .mk 7 "sRGB Piecewise" (some gamutSRGB) (some wpD65)
    (some ⟨"CCTF sRGB", some 21, some 22⟩) [ColorspaceCategory.common]
    "sRGB with its piecewise transfer functions" (some mat3Id) (some mat3Id)
    none false false

/-- Witness for C5: the theorem applied at `csAllAbsent` (linear branch) and
`csNonLinear` (non-linear branch) with the fresh id 200. -/
theorem as_linear_copy_spec_witness :
    (csAllAbsent.as_linear_copy 200).name = csAllAbsent.name
      ∧ (csNonLinear.as_linear_copy 200).name = csNonLinear.name ++ " Linear"
      ∧ (csNonLinear.as_linear_copy 200).retrieve_linear_source
          = some csNonLinear := by
  have h1 := as_linear_copy_spec csAllAbsent 200 (by decide)
  have h2 := as_linear_copy_spec csNonLinear 200 (by decide)
  exact ⟨(h1.1 (by decide)).2.1, (h2.2 (by decide)).2.1,
    (h2.2 (by decide)).2.2.2.2.2.2.2.2⟩

theorem RgbColorspace.idsOf_mk_some (i : Nat) (nm g w tf cats d mt mf s dt df) :
    (RgbColorspace.mk i nm g w tf cats d mt mf (some s) dt df).idsOf
      = i :: s.idsOf := rfl

/-- C6: applying `as_linear_copy` twice to a colorspace with non-linear
transfer functions yields linear transfer functions both times, and the
second result's `retrieve_linear_source` is value-equal to the original but
has a different identity (it is a fresh deep copy, not an alias). -/
theorem as_linear_copy_twice :
    ∀ (c : RgbColorspace) (n1 n2 : Nat) (tf : TransferFunctions),
      c.transfer_functions = some tf → tf.are_linear = false →
      freshFor (c.as_linear_copy n1) n2 →
      (∃ dtf, (c.as_linear_copy n1).transfer_functions = some dtf
          ∧ dtf.are_linear = true)
        ∧ (∃ etf, ((c.as_linear_copy n1).as_linear_copy n2).transfer_functions
              = some etf ∧ etf.are_linear = true)
        ∧ (∃ ls, ((c.as_linear_copy n1).as_linear_copy n2).retrieve_linear_source
              = some ls ∧ rgbEq ls c = true ∧ ls.objId ≠ c.objId) := by
  intro c n1 n2 tf htf hnl hfresh
  have hc : c.tfAbsentOrLinear = false := by
    simp [RgbColorspace.tfAbsentOrLinear, htf, hnl]
  have hd : c.as_linear_copy n1
      = .mk (n1 + c.chainLen) (c.name ++ " Linear") c.gamut c.whitepoint
          (some TRANSFER_FUNCTIONS_LINEAR) c.categories c.description
          c.matrix_to_XYZ c.matrix_from_XYZ (some c) false false := by
    simp [RgbColorspace.as_linear_copy, hc, RgbColorspace.copy]
  have hdlin : (c.as_linear_copy n1).tfAbsentOrLinear = true := by
    rw [hd]; rfl
  have hgen : ∀ d : RgbColorspace, d.tfAbsentOrLinear = true →
      d.as_linear_copy n2 = d.deepcopy n2 := by
    intro d hdl
    simp [RgbColorspace.as_linear_copy, hdl, RgbColorspace.copy]
  have he : (c.as_linear_copy n1).as_linear_copy n2
      = (c.as_linear_copy n1).deepcopy n2 := hgen _ hdlin
  have hobj : c.objId < n2 := by
    apply hfresh
    rw [hd, RgbColorspace.idsOf_mk_some]
    exact List.mem_cons_of_mem _ c.objId_mem_idsOf
  refine ⟨⟨TRANSFER_FUNCTIONS_LINEAR, by rw [hd]; rfl, by decide⟩,
    ⟨TRANSFER_FUNCTIONS_LINEAR, ?_, by decide⟩,
    ⟨c.deepcopy (n2 + 1), ?_, rgbEq_deepcopy c (n2 + 1), ?_⟩⟩
  · rw [he, RgbColorspace.deepcopy_transfer_functions, hd]; rfl
  · rw [he]
    simp only [RgbColorspace.retrieve_linear_source,
      RgbColorspace.deepcopy_linearSource, hd, RgbColorspace.mk_linearSource]
    rfl
  · rw [RgbColorspace.deepcopy_objId]
    omega

/-- Witness for C6: the double application at `csNonLinear` with fresh ids
300 and 400. -/
theorem as_linear_copy_twice_witness :
    ∃ ls, ((csNonLinear.as_linear_copy 300).as_linear_copy 400).retrieve_linear_source
        = some ls ∧ rgbEq ls csNonLinear = true ∧ ls.objId ≠ csNonLinear.objId :=
  (as_linear_copy_twice csNonLinear 300 400 ⟨"CCTF sRGB", some 21, some 22⟩
    rfl (by decide) (by decide)).2.2

theorem readBuf_append_self (h : Heap) (b : Buf) :
    readBuf (h ++ [b]) h.length = b := by
  induction h with
  | nil => rfl
  | cons x xs ih => exact ih

theorem readBuf_append_lt (h : Heap) (b : Buf) (r : Nat) (hr : r < h.length) :
    readBuf (h ++ [b]) r = readBuf h r := by
  induction h generalizing r with
  | nil => simp at hr
  | cons x xs ih =>
    cases r with
    | zero => rfl
    | succ r2 =>
      simp only [List.length_cons, Nat.succ_lt_succ_iff] at hr
      simpa [readBuf] using ih r2 hr

theorem readBuf_set_ne (h : Heap) (i r : Nat) (b : Buf) (hne : i ≠ r) :
    readBuf (h.set i b) r = readBuf h r := by
  induction h generalizing i r with
  | nil => simp [readBuf]
  | cons x xs ih =>
    cases i with
    | zero =>
      cases r with
      | zero => exact absurd rfl hne
      | succ r2 => rfl
    | succ i2 =>
      cases r with
      | zero => rfl
      | succ r2 => simpa [readBuf] using ih i2 r2 (by omega)

/-- C4: when the source is no-op, the target is no-op, or the two
colorspaces are value-equal, `colorspace_to_colorspace` succeeds for every
pixel array and every adaptation argument (no whitepoint needed), returning
a freshly allocated buffer whose contents equal the input's, at a reference
distinct from the input's, such that mutating the result never changes the
input. -/
theorem colorspace_to_colorspace_copy_semantics :
    ∀ (applyTF : Nat → Buf → Buf)
      (catM : Whitepoint → Whitepoint → ChromaticAdaptationTransform → Mat3)
      (h : Heap) (r : Nat) (S T : RgbColorspace)
      (cat : Option ChromaticAdaptationTransform),
      (S.is_no_op = true ∨ T.is_no_op = true ∨ rgbEq S T = true) →
      r < h.length →
      colorspace_to_colorspace applyTF catM h r S T cat
          = .ok (h ++ [readBuf h r], h.length)
        ∧ readBuf (h ++ [readBuf h r]) h.length = readBuf h r
        ∧ h.length ≠ r
        ∧ (∀ b : Buf,
            readBuf (writeBuf (h ++ [readBuf h r]) h.length b) r = readBuf h r) := by
  intro applyTF catM h r S T cat hcond hr
  have hout : colorspace_to_colorspace applyTF catM h r S T cat
      = .ok (ndarrayCopy h r) := by
    rcases hcond with hS | hT | hEq
    · simp [colorspace_to_colorspace, hS]
    · simp [colorspace_to_colorspace, hT]
    · by_cases hno : (S.is_no_op || T.is_no_op) = true
      · simp [colorspace_to_colorspace, hno]
      · simp only [Bool.or_eq_true, not_or, Bool.not_eq_true] at hno
        simp [colorspace_to_colorspace, hno.1, hno.2, hEq]
  refine ⟨hout, readBuf_append_self h _, by omega, ?_⟩
  intro b
  rw [writeBuf, readBuf_set_ne _ _ _ _ (by omega), readBuf_append_lt _ _ _ hr]

/-- Witness for C4: a one-pixel heap converted from the no-op `csAllAbsent`
to itself; the result is a fresh, equal buffer. -/
theorem colorspace_to_colorspace_copy_semantics_witness :
    colorspace_to_colorspace (fun _ b => b) (fun _ _ _ => mat3Id)
        [[⟨1, 2, 3⟩]] 0 csAllAbsent csAllAbsent none
      = .ok ([[⟨1, 2, 3⟩], [⟨1, 2, 3⟩]], 1) := by
  have := colorspace_to_colorspace_copy_semantics (fun _ b => b)
    (fun _ _ _ => mat3Id) [[⟨1, 2, 3⟩]] 0 csAllAbsent csAllAbsent none
    (Or.inl (by decide)) (by decide)
  simpa [readBuf] using this.1

/-- A full source colorspace: gamut, whitepoint and matrices present. -/
def csSrcFull : RgbColorspace :=
  .mk 10 "source" (some gamutSRGB) (some wpD65) none [] "" (some mat3Id)
    (some mat3Id) none false false

/-- A target colorspace with gamut and matrices but no whitepoint. -/
def csTgtNoWp : RgbColorspace :=
  .mk 11 "target" (some gamutSRGB) none none [] "" (some mat3Id)
    (some mat3Id) none false false

/-- C1 (divergence evaluation): both test colorspaces pass the no-op/gamut
short-circuit, yet with *no* chromatic adaptation transform requested each
of the three functions raises the missing-whitepoint `ValueError` — for
`matrix_colorspace_to_colorspace` because the target whitepoint is absent,
and for `colorspace_to_XYZ` / `XYZ_to_colorspace` because `whitepoint_XYZ`
was left at its `None` default. The guard
`transform is not None and not wp_a or not wp_b` parses as
`(A and B) or C`, so the `C` disjunct fires independently of the transform,
contradicting the claim that a null transform never requires whitepoints. -/
theorem whitepoint_guard_precedence_check :
    csSrcFull.is_no_op = false ∧ csTgtNoWp.is_no_op = false
      ∧ csSrcFull.gamut.isSome = true ∧ csTgtNoWp.gamut.isSome = true
      ∧ matrix_colorspace_to_colorspace (fun _ _ _ => mat3Id) csSrcFull
          csTgtNoWp none
        = .error (.valueError "missing whitepoint on one of the colorspace argument")
      ∧ colorspace_to_XYZ (fun _ b => b) (fun _ _ _ => mat3Id)
          [[⟨1, 2, 3⟩]] 0 csSrcFull none none
        = .error (.valueError "missing whitepoint on one of the argument")
      ∧ XYZ_to_colorspace (fun _ b => b) (fun _ _ _ => mat3Id)
          [[⟨1, 2, 3⟩]] 0 csSrcFull none none
        = .error (.valueError "missing whitepoint on one of the argument") := by
  have hsrc : csSrcFull.is_no_op = false := by decide
  have hg : csSrcFull.gamut.isNone = false := by decide
  have htf : csSrcFull.transfer_functions = none := rfl
  have hmt : csSrcFull.matrix_to_XYZ = some mat3Id := rfl
  refine ⟨hsrc, by decide, by decide, by decide, by decide, ?_, ?_⟩
  · simp [colorspace_to_XYZ, vecDot?, hsrc, hg, htf, hmt]
  · simp [XYZ_to_colorspace, hsrc, hg, htf, hmt]

theorem dictGet_mem {reg : Registry} {k : String} {v : RgbColorspace}
    (h : dictGet reg k = some v) : (k, v) ∈ reg := by
  induction reg with
  | nil => simp [dictGet] at h
  | cons kv rest ih =>
    obtain ⟨k0, v0⟩ := kv
    by_cases hk : k0 = k
    · subst hk
      simp [dictGet] at h
      simp [h]
    · simp [dictGet, hk] at h
      exact List.mem_cons_of_mem _ (ih h)

theorem dictGet_dataset_of_disabled {reg : Registry} {disabled : List String}
    {k : String} (h : k ∈ disabled) :
    dictGet (colorspaces_dataset reg disabled) k = none := by
  induction reg with
  | nil => rfl
  | cons kv rest ih =>
    obtain ⟨k0, v0⟩ := kv
    simp only [colorspaces_dataset] at ih ⊢
    by_cases hk0 : k0 ∈ disabled
    · rw [List.filter_cons_of_neg (by simp [hk0])]
      exact ih
    · rw [List.filter_cons_of_pos (by simp [hk0])]
      have hne : k0 ≠ k := fun he => hk0 (he ▸ h)
      simp only [dictGet, hne, if_false]
      exact ih

theorem mem_get_colorspace_aliases {reg : Registry} {disabled : List String}
    {k : String} {v cs : RgbColorspace} (hmem : (k, v) ∈ reg)
    (hnd : k ∉ disabled) (heq : rgbEq cs v = true) :
    k ∈ get_colorspace_aliases reg disabled cs := by
  have hkv : (k, v) ∈ colorspaces_dataset reg disabled := by
    refine List.mem_filter.mpr ⟨hmem, ?_⟩
    simpa using hnd
  exact List.mem_filterMap.mpr ⟨(k, v), hkv, by simp [heq]⟩

theorem disable_colorspaces_enter_mono {reg : Registry} :
    ∀ {names disabled d2 : List String},
      disable_colorspaces_enter reg disabled names = .ok d2 →
      ∀ k ∈ disabled, k ∈ d2 := by
  intro names
  induction names with
  | nil =>
    intro disabled d2 h k hk
    simp [disable_colorspaces_enter] at h
    exact h ▸ hk
  | cons nm rest ih =>
    intro disabled d2 h k hk
    simp only [disable_colorspaces_enter] at h
    cases hg : dictGet reg nm with
    | none => rw [hg] at h; exact absurd h (by simp)
    | some cs =>
      rw [hg] at h
      exact ih h k (List.mem_append_left _ hk)

theorem disable_colorspaces_enter_mono_error {reg : Registry} :
    ∀ {names disabled l : List String},
      disable_colorspaces_enter reg disabled names = .error l →
      ∀ k ∈ disabled, k ∈ l := by
  intro names
  induction names with
  | nil =>
    intro disabled l h k hk
    simp [disable_colorspaces_enter] at h
  | cons nm rest ih =>
    intro disabled l h k hk
    simp only [disable_colorspaces_enter] at h
    cases hg : dictGet reg nm with
    | none =>
      rw [hg] at h
      simp only [Except.error.injEq] at h
      exact h ▸ hk
    | some cs =>
      rw [hg] at h
      exact ih h k (List.mem_append_left _ hk)

theorem disable_colorspaces_enter_hides {reg : Registry} :
    ∀ {names disabled d2 : List String},
      disable_colorspaces_enter reg disabled names = .ok d2 →
      ∀ nm ∈ names, ∀ cs, dictGet reg nm = some cs →
      ∀ k cs2, dictGet reg k = some cs2 → rgbEq cs cs2 = true → k ∈ d2 := by
  intro names
  induction names with
  | nil => intro disabled d2 h nm hnm; simp at hnm
  | cons nm0 rest ih =>
    intro disabled d2 h nm hnm cs hcs k cs2 hk heq
    simp only [disable_colorspaces_enter] at h
    cases hg : dictGet reg nm0 with
    | none => rw [hg] at h; exact absurd h (by simp)
    | some cs0 =>
      rw [hg] at h
      rcases List.mem_cons.mp hnm with hhead | htail
      · subst hhead
        rw [hg] at hcs
        injection hcs with hcs
        have hk2 : k ∈ disabled ++ get_colorspace_aliases reg disabled cs0 := by
          by_cases hkd : k ∈ disabled
          · exact List.mem_append_left _ hkd
          · exact List.mem_append_right _
              (mem_get_colorspace_aliases (dictGet_mem hk) hkd
                (hcs.symm ▸ heq))
        exact disable_colorspaces_enter_mono h k hk2
      · exact ih h nm htail cs hcs k cs2 hk heq

theorem get_colorspace_none_of_disabled {reg : Registry} {disabled : List String}
    {k : String} (h : k ∈ disabled) (fl : Bool) (n : Nat) :
    get_colorspace reg disabled (some k) fl n = none := by
  by_cases hk : k = ""
  · simp [get_colorspace, hk]
  · simp [get_colorspace, hk, dictGet_dataset_of_disabled h]

/-- C2: with nested `disable_colorspaces` scopes (outer entered on an empty
disabled set with `names1`, nested entered with `names2`), every alias key
resolving by value equality to a colorspace named in either scope is in the
nested disabled set and invisible to `get_colorspace`; the outer disabled
set is contained in the nested one; and each scope restores exactly the
disabled set that was in effect before it was entered, whether or not its
body raised. -/
theorem disable_colorspaces_nested_scopes :
    ∀ (reg : Registry) (names1 names2 d1 d2 : List String)
      (bodyRaises1 bodyRaises2 : Bool),
      disable_colorspaces_enter reg [] names1 = .ok d1 →
      disable_colorspaces_enter reg d1 names2 = .ok d2 →
      (∀ nm, (nm ∈ names1 ∨ nm ∈ names2) → ∀ cs, dictGet reg nm = some cs →
        ∀ k cs2, dictGet reg k = some cs2 → rgbEq cs cs2 = true →
          k ∈ d2 ∧ get_colorspace reg d2 (some k) false 0 = none)
        ∧ (∀ k ∈ d1, k ∈ d2)
        ∧ disable_colorspaces_scope reg d1 names2 bodyRaises2
            = ⟨some d2, d1, false⟩
        ∧ disable_colorspaces_scope reg [] names1 bodyRaises1
            = ⟨some d1, [], false⟩ := by
  intro reg names1 names2 d1 d2 b1 b2 h1 h2
  refine ⟨?_, ?_, ?_, ?_⟩
  · intro nm hnm cs hcs k cs2 hk heq
    have hkd2 : k ∈ d2 := by
      rcases hnm with hn1 | hn2
      · exact disable_colorspaces_enter_mono h2 k
          (disable_colorspaces_enter_hides h1 nm hn1 cs hcs k cs2 hk heq)
      · exact disable_colorspaces_enter_hides h2 nm hn2 cs hcs k cs2 hk heq
    exact ⟨hkd2, get_colorspace_none_of_disabled hkd2 false 0⟩
  · exact fun k hk => disable_colorspaces_enter_mono h2 k hk
  · simp [disable_colorspaces_scope, h2]
  · simp [disable_colorspaces_scope, h1]

/-- A minimal registered colorspace "A" with alias key "a". -/
def csA : RgbColorspace :=
  .mk 0 "A" none none none [] "" none none none false false

/-- A second registered colorspace "B" with alias key "b". -/
def csB : RgbColorspace :=
  .mk 1 "B" none none none [] "" none none none false false

/-- A registry holding colorspace "A" under keys "A" and "a". -/
def regAB : Registry := [("A", csA), ("a", csA)]

/-- A registry holding colorspaces "A" and "B", two alias keys each. -/
def regW : Registry := [("A", csA), ("a", csA), ("B", csB), ("b", csB)]

/-- Witness for C2: outer scope disables "A" (keys "A","a"), the nested
scope adds "B" (keys "B","b"); during the nested scope the alias "b" is
hidden, and each scope's outcome restores the prior disabled set. -/
theorem disable_colorspaces_nested_scopes_witness :
    get_colorspace regW ["A", "a", "B", "b"] (some "b") false 0 = none
      ∧ disable_colorspaces_scope regW ["A", "a"] ["B"] true
          = ⟨some ["A", "a", "B", "b"], ["A", "a"], false⟩
      ∧ disable_colorspaces_scope regW [] ["A"] false
          = ⟨some ["A", "a"], [], false⟩ := by
  have h := disable_colorspaces_nested_scopes regW ["A"] ["B"] ["A", "a"]
    ["A", "a", "B", "b"] false true (by decide) (by decide)
  exact ⟨(h.1 "B" (Or.inr (by decide)) csB rfl "b" csB rfl
    (by decide)).2, h.2.2.1, h.2.2.2⟩

/-- Counterexample for C7: disabling `["A", "missing"]` raises the
`KeyError`, but the process-wide disabled set afterwards is `["A", "a"]`,
not the empty set it held before the call — so colorspace "A" stays hidden
from `get_colorspace` with no scope active. -/
theorem disable_colorspaces_invalid_name_leaks :
    (disable_colorspaces_scope regAB [] ["A", "missing"] false).enterRaised = true
      ∧ (disable_colorspaces_scope regAB [] ["A", "missing"] false).finalState
          = ["A", "a"]
      ∧ ["A", "a"] ≠ ([] : List String)
      ∧ get_colorspace regAB ["A", "a"] (some "A") false 0 = none
      ∧ get_colorspace regAB [] (some "A") false 0 = some csA := by
  exact ⟨rfl, rfl, by decide, rfl, rfl⟩

theorem disable_colorspaces_enter_error_iff {reg : Registry} :
    ∀ {names disabled : List String},
      (∃ l, disable_colorspaces_enter reg disabled names = .error l)
        ↔ ∃ nm ∈ names, dictGet reg nm = none := by
  intro names
  induction names with
  | nil => intro disabled; simp [disable_colorspaces_enter]
  | cons nm rest ih =>
    intro disabled
    simp only [disable_colorspaces_enter]
    cases hg : dictGet reg nm with
    | none =>
      constructor
      · intro _
        exact ⟨nm, List.mem_cons_self nm rest, hg⟩
      · intro _
        exact ⟨disabled, rfl⟩
    | some cs =>
      rw [ih]
      constructor
      · rintro ⟨nm2, h2, h3⟩
        exact ⟨nm2, List.mem_cons_of_mem nm h2, h3⟩
      · rintro ⟨nm2, h2, h3⟩
        rcases List.mem_cons.mp h2 with hh | ht
        · subst hh
          rw [hg] at h3
          exact absurd h3 (by simp)
        · exact ⟨nm2, ht, h3⟩

/-- C7 (amended): when `disable_colorspaces` is given a list containing an
unregistered name, the `KeyError` is signaled (exactly when such a name
exists), but the mutation is not rolled back: the leaked disabled set
contains the previous disabled keys and every alias of the colorspace
resolved by a valid name preceding the failure; the disabled set is left
exactly as before only when the failure happens on the first name. -/
theorem disable_colorspaces_error_spec :
    ∀ (reg : Registry) (disabled names : List String),
      ((∃ l, disable_colorspaces_enter reg disabled names = .error l)
          ↔ ∃ nm ∈ names, dictGet reg nm = none)
        ∧ (∀ l, disable_colorspaces_enter reg disabled names = .error l →
            ∀ k ∈ disabled, k ∈ l)
        ∧ (∀ nm rest cs l, names = nm :: rest → dictGet reg nm = some cs →
            disable_colorspaces_enter reg disabled names = .error l →
            ∀ k cs2, dictGet reg k = some cs2 → rgbEq cs cs2 = true → k ∈ l)
        ∧ (∀ nm rest, names = nm :: rest → dictGet reg nm = none →
            disable_colorspaces_enter reg disabled names = .error disabled) := by
  intro reg disabled names
  refine ⟨disable_colorspaces_enter_error_iff, ?_, ?_, ?_⟩
  · exact fun l h => disable_colorspaces_enter_mono_error h
  · intro nm rest cs l hn hg herr k cs2 hk heq
    subst hn
    simp only [disable_colorspaces_enter, hg] at herr
    have hk2 : k ∈ disabled ++ get_colorspace_aliases reg disabled cs := by
      by_cases hkd : k ∈ disabled
      · exact List.mem_append_left _ hkd
      · exact List.mem_append_right _
          (mem_get_colorspace_aliases (dictGet_mem hk) hkd heq)
    exact disable_colorspaces_enter_mono_error herr k hk2
  · intro nm rest hn hg
    subst hn
    simp [disable_colorspaces_enter, hg]

/-- Witness for C7's amended claim: with registry `regAB` and names
`["A", "missing"]`, entry errors (a missing name exists) and the alias "a"
of the valid preceding name "A" is in the leaked disabled set. -/
theorem disable_colorspaces_error_spec_witness :
    "a" ∈ ["A", "a"]
      ∧ (∃ l, disable_colorspaces_enter regAB [] ["A", "missing"] = .error l) := by
  have h := disable_colorspaces_error_spec regAB [] ["A", "missing"]
  exact ⟨h.2.2.1 "A" ["missing"] csA ["A", "a"] rfl rfl rfl
    "a" csA rfl (by decide),
    h.1.mpr ⟨"missing", by decide, rfl⟩⟩

/-- Value equality on optional colorspaces (`None == None`, otherwise
`_tuplerepr` equality). -/
def optRgbEq : Option RgbColorspace → Option RgbColorspace → Bool
  | none, none => true
  | some a, some b => rgbEq a b
  | _, _ => false

theorem optRgbEq_deepcopy_map (ls : Option RgbColorspace) (n : Nat) :
    optRgbEq (ls.map (fun s => s.deepcopy n)) ls = true := by
  cases ls <;> simp [optRgbEq, rgbEq_deepcopy]

/-- A colorspace with a gamut, no whitepoint, and the to-XYZ derivation
flag set (directly constructible on the frozen dataclass). -/
def csDerivedFlagNoWp : RgbColorspace :=
  .mk 12 "flagged" (some gamutSRGB) none none [] "" none none none true false

/-- Counterexample for C8: on a colorspace with an absent whitepoint whose
`_matrix_to_XYZ_derived` flag is true, `with_derived_matrices` goes through
`with_gamut`, whose constructor call omits the flags — the result's flag is
false, so not "every other field" is unchanged. -/
theorem with_derived_matrices_resets_flags :
    (RgbColorspace.with_derived_matrices (fun _ _ => mat3Id) csDerivedFlagNoWp 50).map
        (fun c => c.matrix_to_XYZ_derived) = .ok false
      ∧ csDerivedFlagNoWp.matrix_to_XYZ_derived = true := by
  exact ⟨rfl, rfl⟩

theorem mat3Inv_mul_left (m : Mat3) (h : mat3Det m ≠ 0) :
    mat3Mul (mat3Inv m) m = mat3Id := by
  obtain ⟨a00, a01, a02, a10, a11, a12, a20, a21, a22⟩ := m
  simp only [mat3Det] at h
  simp only [mat3Mul, mat3Inv, mat3Det, mat3Id, Mat3.mk.injEq]
  refine ⟨?_, ?_, ?_, ?_, ?_, ?_, ?_, ?_, ?_⟩ <;>
    (field_simp; ring)

theorem mat3Inv_mul_right (m : Mat3) (h : mat3Det m ≠ 0) :
    mat3Mul m (mat3Inv m) = mat3Id := by
  obtain ⟨a00, a01, a02, a10, a11, a12, a20, a21, a22⟩ := m
  simp only [mat3Det] at h
  simp only [mat3Mul, mat3Inv, mat3Det, mat3Id, Mat3.mk.injEq]
  refine ⟨?_, ?_, ?_, ?_, ?_, ?_, ?_, ?_, ?_⟩ <;>
    (field_simp; ring)

/-- C8 (amended): if gamut or whitepoint is absent, `with_derived_matrices`
returns a new instance with both matrices cleared, gamut and all the value
fields and the linear-source back-reference unchanged, but with both
derivation flags reset to false (the `with_gamut` constructor call omits
them); otherwise a new instance whose `matrix_to_XYZ` is the
normalized-primary matrix of the gamut and whitepoint, whose
`matrix_from_XYZ` is its numeric inverse (two-sided, when the matrix is
nonsingular), with both derivation flags true and every other field
preserved. The original is never mutated (the embedding is pure). -/
theorem with_derived_matrices_spec :
    ∀ (npm : ColorspaceGamut → Whitepoint → Mat3) (c : RgbColorspace) (n : Nat),
      ((c.gamut = none ∨ c.whitepoint = none) →
        ∃ c2, RgbColorspace.with_derived_matrices npm c n = .ok c2
          ∧ c2.matrix_to_XYZ = none ∧ c2.matrix_from_XYZ = none
          ∧ c2.gamut = c.gamut ∧ c2.name = c.name
          ∧ c2.whitepoint = c.whitepoint
          ∧ c2.transfer_functions = c.transfer_functions
          ∧ c2.categories = c.categories ∧ c2.description = c.description
          ∧ optRgbEq c2.linearSource c.linearSource = true
          ∧ c2.matrix_to_XYZ_derived = false
          ∧ c2.matrix_from_XYZ_derived = false)
      ∧ (∀ g w, c.gamut = some g → c.whitepoint = some w →
          mat3Det (npm g w) ≠ 0 →
          ∃ c2, RgbColorspace.with_derived_matrices npm c n = .ok c2
            ∧ c2.matrix_to_XYZ = some (npm g w)
            ∧ c2.matrix_from_XYZ = some (mat3Inv (npm g w))
            ∧ mat3Mul (mat3Inv (npm g w)) (npm g w) = mat3Id
            ∧ mat3Mul (npm g w) (mat3Inv (npm g w)) = mat3Id
            ∧ c2.matrix_to_XYZ_derived = true
            ∧ c2.matrix_from_XYZ_derived = true
            ∧ c2.name = c.name ∧ c2.gamut = c.gamut
            ∧ c2.whitepoint = c.whitepoint
            ∧ c2.transfer_functions = c.transfer_functions
            ∧ c2.categories = c.categories ∧ c2.description = c.description
            ∧ optRgbEq c2.linearSource c.linearSource = true) := by
  intro npm c n
  constructor
  · intro habs
    have hmatch : RgbColorspace.with_derived_matrices npm c n
        = .ok (c.with_gamut c.gamut none none n) := by
      rcases habs with hg | hw
      · simp [RgbColorspace.with_derived_matrices, hg]
      · cases hg : c.gamut <;>
          simp [RgbColorspace.with_derived_matrices, hg, hw]
    refine ⟨c.with_gamut c.gamut none none n, hmatch, ?_⟩
    simp [RgbColorspace.with_gamut, RgbColorspace.copy, optRgbEq_deepcopy_map]
  · intro g w hg hw hdet
    have hinv : RgbColorspace.compute_matrix_from_XYZ_from npm g w
        = .ok (mat3Inv (npm g w)) := by
      simp [RgbColorspace.compute_matrix_from_XYZ_from,
        RgbColorspace.compute_matrix_to_XYZ_from, hdet]
    have hmatch : RgbColorspace.with_derived_matrices npm c n
        = .ok (.mk (n + c.chainLen) c.name c.gamut c.whitepoint
            c.transfer_functions c.categories c.description
            (some (npm g w)) (some (mat3Inv (npm g w)))
            (c.linearSource.map (fun s => s.deepcopy (n + 1))) true true) := by
      simp [RgbColorspace.with_derived_matrices, hg, hw, hinv,
        RgbColorspace.compute_matrix_to_XYZ_from, RgbColorspace.copy]
    exact ⟨_, hmatch, rfl, rfl, mat3Inv_mul_left _ hdet,
      mat3Inv_mul_right _ hdet, rfl, rfl, rfl, rfl, rfl, rfl, rfl, rfl,
      optRgbEq_deepcopy_map _ _⟩

/-- Witness for C8's amended claim: the no-whitepoint branch at
`csDerivedFlagNoWp` and the derivation branch at `csSrcFull` with the
identity normalized-primary matrix. -/
theorem with_derived_matrices_spec_witness :
    (∃ c2, RgbColorspace.with_derived_matrices (fun _ _ => mat3Id)
          csDerivedFlagNoWp 50 = .ok c2
        ∧ c2.matrix_to_XYZ = none ∧ c2.matrix_from_XYZ = none
        ∧ c2.gamut = csDerivedFlagNoWp.gamut
        ∧ c2.name = csDerivedFlagNoWp.name
        ∧ c2.whitepoint = csDerivedFlagNoWp.whitepoint
        ∧ c2.transfer_functions = csDerivedFlagNoWp.transfer_functions
        ∧ c2.categories = csDerivedFlagNoWp.categories
        ∧ c2.description = csDerivedFlagNoWp.description
        ∧ optRgbEq c2.linearSource csDerivedFlagNoWp.linearSource = true
        ∧ c2.matrix_to_XYZ_derived = false
        ∧ c2.matrix_from_XYZ_derived = false)
      ∧ (∃ c2, RgbColorspace.with_derived_matrices (fun _ _ => mat3Id)
            csSrcFull 60 = .ok c2
          ∧ c2.matrix_to_XYZ = some mat3Id
          ∧ c2.matrix_from_XYZ = some (mat3Inv mat3Id)) := by
  have h1 := (with_derived_matrices_spec (fun _ _ => mat3Id)
    csDerivedFlagNoWp 50).1 (Or.inr rfl)
  have h2 := (with_derived_matrices_spec (fun _ _ => mat3Id) csSrcFull 60).2
    gamutSRGB wpD65 rfl rfl (by simp [mat3Det, mat3Id])
  obtain ⟨c2, hc2⟩ := h2
  exact ⟨h1, ⟨c2, hc2.1, hc2.2.1, hc2.2.2.1⟩⟩

theorem subClassRuns_eq_specRunReplace :
    ∀ s : List Char,
      subClassRuns false s = specRunReplace hyphenClass ['-'] s
        ∧ subClassRuns true s
            = specRunReplace hyphenClass ['-'] (s.dropWhile hyphenClass) := by
  intro s
  induction s with
  | nil =>
    exact ⟨by simp [subClassRuns, specRunReplace],
      by simp [subClassRuns, specRunReplace]⟩
  | cons c rest ih =>
    by_cases hc : hyphenClass c
    · refine ⟨?_, ?_⟩
      · simp [subClassRuns, specRunReplace, hc, ih.2]
      · rw [List.dropWhile_cons_of_pos hc]
        simp [subClassRuns, hc, ih.2]
    · refine ⟨?_, ?_⟩
      · simp [subClassRuns, specRunReplace, hc, ih.1]
      · rw [List.dropWhile_cons_of_neg (by simp [hc])]
        simp [subClassRuns, specRunReplace, hc, ih.1]

theorem collapseHyphensAux_eq_spec :
    ∀ s : List Char,
      collapseHyphensAux 0 s = specCollapseRuns s
        ∧ collapseHyphensAux 1 s
            = (if s.head? = some '-' then ['-', '-'] else ['-'])
                ++ specCollapseRuns (s.dropWhile (fun d => d = '-'))
        ∧ ∀ n, 2 ≤ n → collapseHyphensAux n s
            = ['-', '-'] ++ specCollapseRuns (s.dropWhile (fun d => d = '-')) := by
  intro s
  induction s with
  | nil =>
    refine ⟨by simp [collapseHyphensAux, specCollapseRuns, hyOut],
      by simp [collapseHyphensAux, specCollapseRuns, hyOut], ?_⟩
    intro n hn
    simp [collapseHyphensAux, hyOut, specCollapseRuns,
      show n ≠ 0 by omega, show n ≠ 1 by omega]
  | cons c rest ih =>
    by_cases hc : c = '-'
    · subst hc
      refine ⟨?_, ?_, ?_⟩
      · rw [specCollapseRuns]
        simpa [collapseHyphensAux] using ih.2.1
      · rw [List.dropWhile_cons_of_pos (by simp)]
        simpa [collapseHyphensAux] using ih.2.2 2 (le_refl 2)
      · intro n hn
        rw [List.dropWhile_cons_of_pos (by simp)]
        simpa [collapseHyphensAux] using ih.2.2 (n + 1) (by omega)
    · refine ⟨?_, ?_, ?_⟩
      · rw [specCollapseRuns]
        simp [collapseHyphensAux, hc, hyOut, ih.1]
      · rw [List.dropWhile_cons_of_neg (by simp [hc])]
        rw [specCollapseRuns]
        simp [collapseHyphensAux, hc, hyOut, ih.1]
      · intro n hn
        rw [List.dropWhile_cons_of_neg (by simp [hc])]
        rw [specCollapseRuns]
        simp [collapseHyphensAux, hc, hyOut, ih.1,
          show n ≠ 0 by omega, show n ≠ 1 by omega]

theorem simplify_eq_simplifySpec (nfkd : List Char → List Char) (s : List Char) :
    simplify nfkd s = simplifySpec nfkd s := by
  simp only [simplify, simplifySpec, removeBrackets]
  rw [(subClassRuns_eq_specRunReplace _).1, (collapseHyphensAux_eq_spec _).1]

theorem dictGet_dictSet_self (r : Registry) (k : String) (v : RgbColorspace) :
    dictGet (dictSet r k v) k = some v := by
  induction r with
  | nil => simp [dictSet, dictGet]
  | cons kv rest ih =>
    obtain ⟨k0, v0⟩ := kv
    by_cases hk : k0 = k
    · subst hk
      simp [dictSet, dictGet]
    · simp [dictSet, dictGet, hk, ih]

theorem dictGet_dictSet_ne (r : Registry) (a k : String) (v : RgbColorspace)
    (h : a ≠ k) : dictGet (dictSet r a v) k = dictGet r k := by
  induction r with
  | nil => simp [dictSet, dictGet, h]
  | cons kv rest ih =>
    obtain ⟨k0, v0⟩ := kv
    by_cases hk : k0 = a
    · subst hk
      simp [dictSet, dictGet, h]
    · simp [dictSet, dictGet, hk, ih]

theorem dictGet_foldl_dictSet (as : List String) (r : Registry) (k : String)
    (v : RgbColorspace) (h : dictGet r k = some v) :
    dictGet (as.foldl (fun r2 a => dictSet r2 a v) r) k = some v := by
  induction as generalizing r with
  | nil => exact h
  | cons a rest ih =>
    apply ih
    by_cases ha : a = k
    · subst ha
      exact dictGet_dictSet_self r a v
    · rw [dictGet_dictSet_ne r a k v ha]
      exact h

/-- C9: the `name_simplified` property equals the claim's slug algorithm
(quantified over the external NFKD normalizer), the code's three regex
passes implement the claim's maximal-run replacements exactly
(`simplify = simplifySpec` for every input), registering a colorspace makes
the slug key resolve to it, and a concrete worked example: runs of
whitespace to one hyphen, brackets deleted, hyphen runs collapsed to two. -/
theorem name_simplified_algorithm :
    (∀ (nfkd : List Char → List Char) (s : List Char),
        simplify nfkd s = simplifySpec nfkd s)
      ∧ (∀ (nfkd : List Char → List Char) (c : RgbColorspace),
          c.name_simplified nfkd = simplifySpec nfkd c.name.data)
      ∧ (∀ (nfkd : List Char → List Char) (reg : Registry)
          (c : RgbColorspace) (aliases : List String),
          dictGet (add_colorspace nfkd reg c aliases)
              (String.mk (simplifySpec nfkd c.name.data)) = some c)
      ∧ simplify (fun s => s) "A  --  B(c)/d".data = "a--bc-d".data := by
  refine ⟨simplify_eq_simplifySpec, ?_, ?_, ?_⟩
  · intro nfkd c
    exact simplify_eq_simplifySpec nfkd c.name.data
  · intro nfkd reg c aliases
    unfold add_colorspace
    apply dictGet_foldl_dictSet
    rw [RgbColorspace.name_simplified, simplify_eq_simplifySpec]
    exact dictGet_dictSet_self _ _ _
  · decide
